import Mathlib

/-!
Shallow embedding of the `vigilant` change-detection and publication engine
(`main.go`): the per-pair watermark model, the commit scan with its strict
post-filter, the four-step publish workflow against the GitHub host, the
per-cycle iteration over configured repository pairs, and the scheduler's
trigger handling.  Host responses (`ListCommits`, `GetRef`, `CreateRef`,
`CreateFile`, `PullRequests.Create`) are inputs to the embedded functions;
the functions return the sequence of host actions they perform together
with their result, so ordering and abort behaviour are visible.
-/

namespace Vigilant

/-- Instants in nanoseconds since the Unix epoch, mirroring Go `time.Time`
(whose `After` compares instants at nanosecond precision). -/
abbrev Instant := Int

/-- Go `t.After(u)`: strictly later. -/
def appTimeAfter (t u : Instant) : Bool := u < t

/-- Projection of a remote commit used by the engine: `commit.Commit.Message`,
`commit.HTMLURL` and `commit.Commit.Author.Date` (go-github `RepositoryCommit`). -/
structure RepositoryCommit where
  message : String
  htmlURL : String
  authorDate : Instant
deriving Repr, DecidableEq

/-- A `[[repos]]` entry of `config.toml` after `loadConfig`
(`RepoConfig` in main.go). -/
structure RepoConfig where
  sourceRepoName : String
  filePath : String
  targetRepoName : String
  since : String
  lastChecked : Instant
deriving Repr, DecidableEq

/-- A `log.Fatalf` call: the Go process terminates immediately.  Modelling it
as the error of an `Except` makes the abort visible to the caller. -/
inductive Fatalf where
  | invalidRepoName (name : String)
deriving Repr, DecidableEq

/-- Go `strings.Split` on a one-character separator, over the character
list: splitting never yields an empty group list. -/
def splitOnChar (sep : Char) : List Char → List (List Char)
  | [] => [[]]
  | c :: cs =>
    let r := splitOnChar sep cs
    if c = sep then [] :: r
    else
      match r with
      | [] => [[c]]
      | g :: gs => (c :: g) :: gs

/-- Go `strings.Split(s, "/")` and friends. -/
def goSplit (s : String) (sep : Char) : List String :=
  (splitOnChar sep s.toList).map String.mk

/-- `parseRepoName` (main.go): splits `owner/repo`; any other shape calls
`log.Fatalf("Invalid repository name: %s", ...)`, killing the process. -/
def parseRepoName (fullRepoName : String) : Except Fatalf (String × String) :=
  match goSplit fullRepoName '/' with
  | [owner, repo] => .ok (owner, repo)
  | _ => .error (.invalidRepoName fullRepoName)

/-- A repository name the engine can process without dying:
`strings.Split(s, "/")` yields exactly two parts. -/
abbrev validRepoName (s : String) : Prop := (goSplit s '/').length = 2

/-! ### Calendar arithmetic for Go `time` formatting and parsing

`time.Parse("2006-01-02", s)` and `Format` of the layouts `"20060102-150405"`
and `time.RFC1123` need days-from-civil and civil-from-days conversions
(proleptic Gregorian calendar, UTC).  The formatting functions below are
faithful for instants at or after the Unix epoch, the only instants the
program ever formats (`time.Now()` and GitHub commit dates). -/

def isLeap (y : Nat) : Bool := (y % 4 == 0 && y % 100 != 0) || y % 400 == 0

def daysInMonth (y m : Nat) : Nat :=
  if m == 2 then (if isLeap y then 29 else 28)
  else if m == 4 || m == 6 || m == 9 || m == 11 then 30
  else 31

/-- Days from 1970-01-01 to year `y`, month `m`, day `d` (may be negative). -/
def daysFromCivil (y m d : Nat) : Int :=
  let yAdj : Nat := if m ≤ 2 then y - 1 else y
  let era : Nat := yAdj / 400
  let yoe : Nat := yAdj % 400
  let mp : Nat := if m > 2 then m - 3 else m + 9
  let doy : Nat := (153 * mp + 2) / 5 + d - 1
  let doe : Nat := yoe * 365 + yoe / 4 - yoe / 100 + doy
  (era * 146097 + doe : Int) - 719468

/-- Inverse conversion: days since 1970-01-01 to `(year, month, day)`. -/
def civilFromDays (days : Nat) : Nat × Nat × Nat :=
  let z := days + 719468
  let era := z / 146097
  let doe := z % 146097
  let yoe := (doe - doe / 1460 + doe / 36524 - doe / 146096) / 365
  let y := yoe + era * 400
  let doy := doe - (365 * yoe + yoe / 4 - yoe / 100)
  let mp := (5 * doy + 2) / 153
  let d := doy - (153 * mp + 2) / 5 + 1
  let m := if mp < 10 then mp + 3 else mp - 9
  if m ≤ 2 then (y + 1, m, d) else (y, m, d)

def pad2 (n : Nat) : String := if n < 10 then "0" ++ toString n else toString n

def pad4 (n : Nat) : String :=
  if n < 10 then "000" ++ toString n
  else if n < 100 then "00" ++ toString n
  else if n < 1000 then "0" ++ toString n
  else toString n

/-- Calendar and clock fields of a wall-clock second count (UTC). -/
def timePartsOfSecs (secs : Nat) : Nat × Nat × Nat × Nat × Nat × Nat :=
  let days := secs / 86400
  let sod := secs % 86400
  let (y, m, d) := civilFromDays days
  (y, m, d, sod / 3600, sod % 3600 / 60, sod % 60)

/-- `Format("20060102-150405")` of a second count. -/
def formatCompactSec (secs : Nat) : String :=
  let (y, m, d, hh, mm, ss) := timePartsOfSecs secs
  pad4 y ++ pad2 m ++ pad2 d ++ "-" ++ pad2 hh ++ pad2 mm ++ pad2 ss

/-- The wall-clock second of an instant (what second-resolution `Format`
layouts depend on), for instants at or after the epoch. -/
def secondsOf (t : Instant) : Nat := t.toNat / 1000000000

/-- Go `t.Format("20060102-150405")`. -/
def formatCompact (t : Instant) : String := formatCompactSec (secondsOf t)

def monthName (m : Nat) : String :=
  match m with
  | 1 => "Jan" | 2 => "Feb" | 3 => "Mar" | 4 => "Apr" | 5 => "May" | 6 => "Jun"
  | 7 => "Jul" | 8 => "Aug" | 9 => "Sep" | 10 => "Oct" | 11 => "Nov" | _ => "Dec"

def weekdayName (days : Nat) : String :=
  match (days + 4) % 7 with
  | 0 => "Sun" | 1 => "Mon" | 2 => "Tue" | 3 => "Wed" | 4 => "Thu" | 5 => "Fri"
  | _ => "Sat"

/-- `Format(time.RFC1123)` of a second count. -/
def formatRFC1123Sec (secs : Nat) : String :=
  let days := secs / 86400
  let (y, m, d, hh, mm, ss) := timePartsOfSecs secs
  weekdayName days ++ ", " ++ pad2 d ++ " " ++ monthName m ++ " " ++ pad4 y ++
    " " ++ pad2 hh ++ ":" ++ pad2 mm ++ ":" ++ pad2 ss ++ " UTC"

/-- Go `t.Format(time.RFC1123)` for a UTC instant:
`"Mon, 02 Jan 2006 15:04:05 MST"`. -/
def formatRFC1123 (t : Instant) : String := formatRFC1123Sec (secondsOf t)

/-- Digits-only field of a date string. -/
def parseNatField (l : List Char) : Option Nat :=
  if l.length > 0 && l.all (fun c => c.isDigit) then
    some (l.foldl (fun n c => n * 10 + (c.toNat - 48)) 0)
  else none

/-- Go `time.Parse("2006-01-02", s)` (main.go `loadConfig`): a valid
`YYYY-MM-DD` date yields midnight UTC of that day; anything else errors. -/
def parseSinceDate (s : String) : Option Instant :=
  match splitOnChar '-' s.toList with
  | [ys, ms, ds] =>
    if ys.length = 4 ∧ ms.length = 2 ∧ ds.length = 2 then
      match parseNatField ys, parseNatField ms, parseNatField ds with
      | some y, some m, some d =>
        if 1 ≤ m ∧ m ≤ 12 ∧ 1 ≤ d ∧ d ≤ daysInMonth y m then
          some (daysFromCivil y m d * 86400 * 1000000000)
        else none
      | _, _, _ => none
    else none
  | _ => none

/-! ### The commit scan (`checkRepo`) -/

/-- Opaque reason string of a failed GitHub API call. -/
abbrev GhError := String

/-- `checkRepo` (main.go): `parseRepoName` (fatal on a malformed name), one
`ListCommits(owner, repo, {Path, Since})` call — whose response is the
`listCommitsResult` input — then the post-filter keeping, in order, exactly
the commits whose `Commit.Author.Date.After(lastChecked)`. -/
def checkRepo (listCommitsResult : Except GhError (List RepositoryCommit))
    (repoName : String) (lastChecked : Instant) :
    Except Fatalf (Except GhError (List RepositoryCommit)) :=
  match parseRepoName repoName with
  | .error f => .error f
  | .ok _ =>
    match listCommitsResult with
    | .error e => .ok (.error e)
    | .ok commits =>
      .ok (.ok (commits.filter (fun c => appTimeAfter c.authorDate lastChecked)))

/-! ### The publish workflow (`createPullRequest`) -/

/-- Character-wise body of `strings.ReplaceAll(s, "/", "-")`. -/
def replaceSlashes : List Char → List Char
  | [] => []
  | c :: cs => (if c = '/' then '-' else c) :: replaceSlashes cs

/-- Go `strings.ReplaceAll(filePath, "/", "-")`. -/
def slug (filePath : String) : String := String.mk (replaceSlashes filePath.toList)

/-- main.go line 228: the branch name for a publish at wall-clock `now`. -/
def branchNameFor (filePath : String) (now : Instant) : String :=
  slug filePath ++ "-update-" ++ formatCompact now

/-- One `- [<message>](<HTMLURL>) - <RFC1123 author date>` line of the body. -/
def commitLine (c : RepositoryCommit) : String :=
  "- [" ++ c.message ++ "](" ++ c.htmlURL ++ ") - " ++
    formatRFC1123 c.authorDate ++ "\n"

/-- The fixed explanatory first paragraph of the body. -/
def bodyIntro (filePath : String) : String :=
  "This pull request notifies that there have been changes to `" ++ filePath ++
    "` in the source repository.\n\n"

/-- The Markdown body as main.go builds it: the intro, then `body +=` one
line per commit, in commit order. -/
def composeBody (filePath : String) (commits : List RepositoryCommit) : String :=
  commits.foldl (fun b c => b ++ commitLine c) (bodyIntro filePath)

/-- The GitHub mutations/queries `createPullRequest` can issue, in the order
and with the arguments the code passes them. -/
inductive HostAction where
  | getRef (owner repo ref : String)
  | createRef (owner repo ref sha : String)
  | createFile (owner repo filename content message branch : String)
  | createPR (owner repo title head base body : String)
deriving Repr, DecidableEq

/-- The host's response to each step of one publish attempt (inputs to the
embedded workflow; a step's response is only consumed if the step runs). -/
structure HostOutcomes where
  getRefResult : Except GhError String
  createRefResult : Except GhError Unit
  createFileResult : Except GhError Unit
  createPRResult : Except GhError Unit

/-- `createPullRequest` (main.go): compose branch name, title and body, then
`GetRef "refs/heads/main"` → `CreateRef` → `CreateFile` → `PullRequests.Create`,
each step running only if the previous succeeded, any failure returned as is.
The result carries the host actions actually issued, in order, plus the
returned error or success. -/
def createPullRequest (h : HostOutcomes) (now : Instant)
    (targetRepoName filePath : String) (commits : List RepositoryCommit) :
    Except Fatalf (List HostAction × Except GhError Unit) :=
  match parseRepoName targetRepoName with
  | .error f => .error f
  | .ok (owner, repo) =>
    let branchName := branchNameFor filePath now
    let title := "Update: Changes in " ++ filePath
    let body := composeBody filePath commits
    let a1 := HostAction.getRef owner repo "refs/heads/main"
    match h.getRefResult with
    | .error e => .ok ([a1], .error e)
    | .ok sha =>
      let a2 := HostAction.createRef owner repo ("refs/heads/" ++ branchName) sha
      match h.createRefResult with
      | .error e => .ok ([a1, a2], .error e)
      | .ok _ =>
        let filename := slug filePath ++ "-updates.md"
        let a3 := HostAction.createFile owner repo filename body
          ("Notify about changes to " ++ filePath) branchName
        match h.createFileResult with
        | .error e => .ok ([a1, a2, a3], .error e)
        | .ok _ =>
          let a4 := HostAction.createPR owner repo title branchName "main" body
          .ok ([a1, a2, a3, a4], h.createPRResult)

/-! ### One cycle over all pairs (`checkRepos`) -/

/-- The log lines `checkRepos` emits, one constructor per `log.Printf`. -/
inductive LogEvent where
  | checkingRepo (source filePath : String)
  | errorChecking (source : String) (err : GhError)
  | foundCommits (n : Nat) (filePath : String)
  | errorCreatingPR (target : String) (err : GhError)
  | createdPR (target : String)
  | noNewCommits (filePath source : String)
deriving Repr, DecidableEq

/-- The nondeterministic environment of one pair within one cycle: the host's
`ListCommits` response, the host's responses to the four publish steps, the
`time.Now()` read inside `createPullRequest` (branch timestamp) and the later
`time.Now()` read when the watermark is advanced. -/
structure PairCycleInput where
  listCommitsResult : Except GhError (List RepositoryCommit)
  hostOutcomes : HostOutcomes
  publishNow : Instant
  successNow : Instant

/-- What processing one pair produced: its (possibly updated) config, its log
lines and its host actions — or a `log.Fatalf` abort. -/
inductive PairResult where
  | ok (cfg : RepoConfig) (log : List LogEvent) (actions : List HostAction)
  | fatal (f : Fatalf) (log : List LogEvent) (actions : List HostAction)
deriving Repr, DecidableEq

/-- The body of `checkRepos`'s loop for one pair (main.go lines 179-199):
scan; on scan error log and continue; on new commits publish and, only on
publish success, set `LastChecked` to `time.Now()`; otherwise log. -/
def processPair (inp : PairCycleInput) (cfg : RepoConfig) : PairResult :=
  let log0 := [LogEvent.checkingRepo cfg.sourceRepoName cfg.filePath]
  match checkRepo inp.listCommitsResult cfg.sourceRepoName cfg.lastChecked with
  | .error f => .fatal f log0 []
  | .ok (.error e) =>
    .ok cfg (log0 ++ [.errorChecking cfg.sourceRepoName e]) []
  | .ok (.ok newCommits) =>
    if newCommits.length > 0 then
      let log1 := log0 ++ [LogEvent.foundCommits newCommits.length cfg.filePath]
      match createPullRequest inp.hostOutcomes inp.publishNow
          cfg.targetRepoName cfg.filePath newCommits with
      | .error f => .fatal f log1 []
      | .ok (acts, .error e) =>
        .ok cfg (log1 ++ [.errorCreatingPR cfg.targetRepoName e]) acts
      | .ok (acts, .ok _) =>
        .ok { cfg with lastChecked := inp.successNow }
          (log1 ++ [.createdPR cfg.targetRepoName]) acts
    else
      .ok cfg (log0 ++ [.noNewCommits cfg.filePath cfg.sourceRepoName]) []

/-- Outcome of one full cycle: the config list after the cycle, the log and
the host actions; `fatal` records a `log.Fatalf` mid-cycle (process death),
with the config list as it stood at that moment — pairs after the fatal one
untouched and unprocessed. -/
inductive CycleOutcome where
  | completed (configs : List RepoConfig) (log : List LogEvent)
      (actions : List HostAction)
  | fatal (f : Fatalf) (configs : List RepoConfig) (log : List LogEvent)
      (actions : List HostAction)
deriving Repr, DecidableEq

/-- The loop of `checkRepos`, pair `i` drawing its environment from
`inputs i`. -/
def checkReposFrom (inputs : Nat → PairCycleInput) :
    Nat → List RepoConfig → CycleOutcome
  | _, [] => .completed [] [] []
  | i, cfg :: rest =>
    match processPair (inputs i) cfg with
    | .fatal f lg acts => .fatal f (cfg :: rest) lg acts
    | .ok cfg1 lg acts =>
      match checkReposFrom inputs (i + 1) rest with
      | .completed cfgs lg2 acts2 =>
        .completed (cfg1 :: cfgs) (lg ++ lg2) (acts ++ acts2)
      | .fatal f cfgs lg2 acts2 =>
        .fatal f (cfg1 :: cfgs) (lg ++ lg2) (acts ++ acts2)

/-- `checkRepos` (main.go): iterate the configured pairs in order. -/
def checkRepos (inputs : Nat → PairCycleInput) (configs : List RepoConfig) :
    CycleOutcome :=
  checkReposFrom inputs 0 configs

/-- The config list after a cycle, whether it completed or died. -/
def CycleOutcome.configsOf : CycleOutcome → List RepoConfig
  | .completed cfgs _ _ => cfgs
  | .fatal _ cfgs _ _ => cfgs

/-- The log of a cycle. -/
def CycleOutcome.logOf : CycleOutcome → List LogEvent
  | .completed _ lg _ => lg
  | .fatal _ _ lg _ => lg

/-! ### Restart and reload

`loadConfig` (main.go) re-reads `config.toml` and sets each pair's
`LastChecked` from its `since` string via `time.Parse("2006-01-02", ...)`;
nothing in the program ever writes `config.toml`. -/

/-- The per-pair step of `loadConfig` after a restart: the watermark a pair
starts with is parsed from its persisted `since` field. -/
def reloadPair (persisted : RepoConfig) : Option RepoConfig :=
  (parseSinceDate persisted.since).map
    (fun t => { persisted with lastChecked := t })

/-! ### The scheduler (`Run`, `triggerManualCheck`)

`Run` spawns a `checkRepos` goroutine on every ticker tick with no lock;
`triggerManualCheck` (invoked by the SIGUSR1 handler) takes `s.mu`, spawns a
`checkRepos` goroutine, and releases `s.mu`.  The state records whether
`s.mu` is held and how many `checkRepos` goroutines are currently running
over the shared `s.repoConfigs` slice. -/

structure SchedState where
  muHeld : Bool
  activeCycles : Nat
deriving Repr, DecidableEq

/-- The scheduler's atomic events, one constructor per line of `Run` /
`triggerManualCheck` that changes this state. -/
inductive SchedStep : SchedState → SchedState → Prop where
  | tickSpawn (mu : Bool) (n : Nat) :
      SchedStep ⟨mu, n⟩ ⟨mu, n + 1⟩
  | sigusr1Lock (n : Nat) :
      SchedStep ⟨false, n⟩ ⟨true, n⟩
  | sigusr1Spawn (n : Nat) :
      SchedStep ⟨true, n⟩ ⟨true, n + 1⟩
  | sigusr1Unlock (n : Nat) :
      SchedStep ⟨true, n⟩ ⟨false, n⟩
  | cycleDone (mu : Bool) (n : Nat) :
      SchedStep ⟨mu, n + 1⟩ ⟨mu, n⟩

/-- States the scheduler can reach from process start (`mu` free, no cycle
running). -/
def SchedReachable (s : SchedState) : Prop :=
  Relation.ReflTransGen SchedStep ⟨false, 0⟩ s

/-- The pair's config after processing, when the process survived. -/
def PairResult.cfgOf : PairResult → Option RepoConfig
  | .ok c _ _ => some c
  | .fatal _ _ _ => none

/-- The log lines of one pair's processing. -/
def PairResult.logLines : PairResult → List LogEvent
  | .ok _ lg _ => lg
  | .fatal _ lg _ => lg

/-! ### Spec-side definitions (for refinement comparison only)

These follow the wording of spec.md, not the code; they exist to be compared
with the embedded code above. -/

/-- §3 of the spec: a repo pair as the spec describes it, including a
configurable `baseBranch` name. -/
structure SpecRepoPairConfig where
  sourceRepo : String
  watchedFilePath : String
  targetRepo : String
  baseBranch : String
deriving Repr, DecidableEq

/-- §4.3 step 1 per the spec: the ref whose tip the workflow resolves is the
pair's configured `baseBranch`. -/
def specGetRefTarget (cfg : SpecRepoPairConfig) : String :=
  "refs/heads/" ++ cfg.baseBranch

/-- §4.3 step 5 per the spec: the PR's base is the pair's configured
`baseBranch`. -/
def specPRBase (cfg : SpecRepoPairConfig) : String := cfg.baseBranch

/-- §4.3 step 3 per the spec: the commit lines of the Markdown body, one
`- [<message>](<permalink>) - <author date>` line per commit, in order. -/
def specBodyLines : List RepositoryCommit → String
  | [] => ""
  | c :: cs => commitLine c ++ specBodyLines cs

/-! ## Shared lemmas -/

/-- Appending a commit line per commit to an accumulator yields the
accumulator followed by the lines in order. -/
theorem foldl_commitLine_eq (l : List RepositoryCommit) :
    ∀ b : String, l.foldl (fun acc c => acc ++ commitLine c) b =
      b ++ specBodyLines l := by
  induction l with
  | nil => intro b; simp [specBodyLines, String.append_empty]
  | cons c cs ih =>
    intro b
    simp only [List.foldl_cons, specBodyLines]
    rw [ih, String.append_assoc]

/-- The body main.go builds is the fixed sentence followed by the commit
lines in order. -/
theorem composeBody_eq_spec (fp : String) (l : List RepositoryCommit) :
    composeBody fp l = bodyIntro fp ++ specBodyLines l :=
  foldl_commitLine_eq l (bodyIntro fp)

/-- A scheduler run in which a ticker cycle is running and a SIGUSR1 trigger
then starts a second concurrent cycle: tick-spawn, lock, spawn, unlock. -/
theorem twoCyclesPath : SchedReachable ⟨false, 2⟩ := by
  have s1 : SchedStep ⟨false, 0⟩ ⟨false, 1⟩ := SchedStep.tickSpawn false 0
  have s2 : SchedStep ⟨false, 1⟩ ⟨true, 1⟩ := SchedStep.sigusr1Lock 1
  have s3 : SchedStep ⟨true, 1⟩ ⟨true, 2⟩ := SchedStep.sigusr1Spawn 1
  have s4 : SchedStep ⟨true, 2⟩ ⟨false, 2⟩ := SchedStep.sigusr1Unlock 2
  exact .head s1 (.head s2 (.head s3 (.head s4 .refl)))

/-! ## Claims -/

/-- Claim C2: for every watermark instant `t` and every commit list the host
returns, the scan result of `checkRepo` keeps no commit whose author date is
`≤ t`: every commit in the result is strictly after `t`, regardless of how
inclusive the host's own `since` filtering was. -/
theorem scan_keeps_only_strictly_newer
    (hostCommits : List RepositoryCommit) (repoName : String) (t : Instant)
    (l : List RepositoryCommit)
    (h : checkRepo (.ok hostCommits) repoName t = .ok (.ok l)) :
    ∀ c ∈ l, t < c.authorDate := by
  intro c hc
  cases hp : parseRepoName repoName with
  | error f => simp [checkRepo, hp] at h
  | ok p =>
    simp only [checkRepo, hp, Except.ok.injEq] at h
    subst h
    have hf := (List.mem_filter.mp hc).2
    simpa [appTimeAfter] using hf

/-- Witness for C2: with watermark 5, a host list holding commits dated 3 and
7 scans to exactly the commit dated 7, which is strictly after 5. -/
theorem scan_keeps_only_strictly_newer_witness :
    (5 : Vigilant.Instant) <
      ({ message := "fix bug", htmlURL := "u", authorDate := 7 } :
        RepositoryCommit).authorDate :=
  scan_keeps_only_strictly_newer
    [⟨"old", "v", 3⟩, ⟨"fix bug", "u", 7⟩] "owner/repo" 5
    [⟨"fix bug", "u", 7⟩] rfl ⟨"fix bug", "u", 7⟩ (by simp)

/-- Claim C3: the publish workflow runs resolve-base-tip, create-branch-ref,
create-file, create-PR strictly in that order; the first failing step makes
the workflow return that failure with no later step attempted, and the
actions issued are exactly the steps up to the failure — no rollback or
cleanup action ever appears. -/
theorem publish_steps_ordered_abort_no_cleanup
    (h : HostOutcomes) (now : Instant) (target fp : String)
    (commits : List RepositoryCommit) (owner repo : String)
    (hp : parseRepoName target = .ok (owner, repo)) :
    (∀ e, h.getRefResult = .error e →
      createPullRequest h now target fp commits =
        .ok ([.getRef owner repo "refs/heads/main"], .error e)) ∧
    (∀ sha e, h.getRefResult = .ok sha → h.createRefResult = .error e →
      createPullRequest h now target fp commits =
        .ok ([.getRef owner repo "refs/heads/main",
              .createRef owner repo ("refs/heads/" ++ branchNameFor fp now) sha],
             .error e)) ∧
    (∀ sha e, h.getRefResult = .ok sha → h.createRefResult = .ok () →
      h.createFileResult = .error e →
      createPullRequest h now target fp commits =
        .ok ([.getRef owner repo "refs/heads/main",
              .createRef owner repo ("refs/heads/" ++ branchNameFor fp now) sha,
              .createFile owner repo (slug fp ++ "-updates.md")
                (composeBody fp commits) ("Notify about changes to " ++ fp)
                (branchNameFor fp now)],
             .error e)) ∧
    (∀ sha, h.getRefResult = .ok sha → h.createRefResult = .ok () →
      h.createFileResult = .ok () →
      createPullRequest h now target fp commits =
        .ok ([.getRef owner repo "refs/heads/main",
              .createRef owner repo ("refs/heads/" ++ branchNameFor fp now) sha,
              .createFile owner repo (slug fp ++ "-updates.md")
                (composeBody fp commits) ("Notify about changes to " ++ fp)
                (branchNameFor fp now),
              .createPR owner repo ("Update: Changes in " ++ fp)
                (branchNameFor fp now) "main" (composeBody fp commits)],
             h.createPRResult)) := by
  refine ⟨?_, ?_, ?_, ?_⟩
  · intro e he
    simp [createPullRequest, hp, he]
  · intro sha e h1 h2
    simp [createPullRequest, hp, h1, h2]
  · intro sha e h1 h2 h3
    simp [createPullRequest, hp, h1, h2, h3]
  · intro sha h1 h2 h3
    simp [createPullRequest, hp, h1, h2, h3]

/-- Witness for C3: a failing base-ref lookup makes the whole workflow issue
exactly the one lookup and return that error. -/
theorem publish_steps_ordered_abort_no_cleanup_witness :
    createPullRequest ⟨.error "missing branch", .ok (), .ok (), .ok ()⟩ 0
      "o/t" "f" [] =
      .ok ([.getRef "o" "t" "refs/heads/main"], .error "missing branch") :=
  (publish_steps_ordered_abort_no_cleanup
      ⟨.error "missing branch", .ok (), .ok (), .ok ()⟩ 0 "o/t" "f" [] "o" "t"
      rfl).1 "missing branch" rfl

/-- Claim C9: on a fully successful publish, the notification file is named
`<slug(filePath)>-updates.md`, its content is the composed Markdown body —
the fixed explanatory sentence naming the watched file followed by one
`- [<message>](<permalink>) - <author date>` line per commit, in order — and
the pull request's body is that same composed body. -/
theorem publish_file_and_pr_content
    (h : HostOutcomes) (now : Instant) (target fp : String)
    (commits : List RepositoryCommit) (owner repo sha : String)
    (hp : parseRepoName target = .ok (owner, repo))
    (h1 : h.getRefResult = .ok sha) (h2 : h.createRefResult = .ok ())
    (h3 : h.createFileResult = .ok ()) :
    createPullRequest h now target fp commits =
      .ok ([.getRef owner repo "refs/heads/main",
            .createRef owner repo ("refs/heads/" ++ branchNameFor fp now) sha,
            .createFile owner repo (slug fp ++ "-updates.md")
              (composeBody fp commits) ("Notify about changes to " ++ fp)
              (branchNameFor fp now),
            .createPR owner repo ("Update: Changes in " ++ fp)
              (branchNameFor fp now) "main" (composeBody fp commits)],
           h.createPRResult) ∧
    composeBody fp commits = bodyIntro fp ++ specBodyLines commits := by
  constructor
  · simp [createPullRequest, hp, h1, h2, h3]
  · exact composeBody_eq_spec fp commits

/-- Witness for C9: scenario A of the spec — one commit "fix bug" with
permalink `https://host/c/abc`, file `f`: the file `f-updates.md` and the PR
carry the same body, whose commit line links the message to the permalink. -/
theorem publish_file_and_pr_content_witness :
    createPullRequest ⟨.ok "sha", .ok (), .ok (), .ok ()⟩ 0 "o/t" "f"
      [⟨"fix bug", "https://host/c/abc", 1704153600000000000⟩] =
      .ok ([.getRef "o" "t" "refs/heads/main",
            .createRef "o" "t" ("refs/heads/" ++ branchNameFor "f" 0) "sha",
            .createFile "o" "t" (slug "f" ++ "-updates.md")
              (composeBody "f" [⟨"fix bug", "https://host/c/abc", 1704153600000000000⟩])
              ("Notify about changes to " ++ "f") (branchNameFor "f" 0),
            .createPR "o" "t" ("Update: Changes in " ++ "f")
              (branchNameFor "f" 0) "main"
              (composeBody "f" [⟨"fix bug", "https://host/c/abc", 1704153600000000000⟩])],
           .ok ()) ∧
    composeBody "f" [⟨"fix bug", "https://host/c/abc", 1704153600000000000⟩] =
      bodyIntro "f" ++
        specBodyLines [⟨"fix bug", "https://host/c/abc", 1704153600000000000⟩] :=
  publish_file_and_pr_content ⟨.ok "sha", .ok (), .ok (), .ok ()⟩ 0 "o/t" "f"
    [⟨"fix bug", "https://host/c/abc", 1704153600000000000⟩] "o" "t" "sha"
    rfl rfl rfl rfl

/-- Claim C6, amended: the publish workflow always resolves the tip of the
hardcoded branch `main` of the target repository — every ref lookup it issues
targets `refs/heads/main` — and every pull request it opens has base `main`;
no per-pair base branch exists in the configuration. -/
theorem publish_base_branch_hardcoded_main
    (h : HostOutcomes) (now : Instant) (target fp : String)
    (commits : List RepositoryCommit) (owner repo : String)
    (acts : List HostAction) (res : Except GhError Unit)
    (hp : parseRepoName target = .ok (owner, repo))
    (hr : createPullRequest h now target fp commits = .ok (acts, res)) :
    HostAction.getRef owner repo "refs/heads/main" ∈ acts ∧
    (∀ o r ref, HostAction.getRef o r ref ∈ acts → ref = "refs/heads/main") ∧
    (∀ o r ti hd b bd, HostAction.createPR o r ti hd b bd ∈ acts → b = "main") := by
  simp only [createPullRequest, hp] at hr
  cases hg : h.getRefResult with
  | error e =>
    simp only [hg, Except.ok.injEq, Prod.mk.injEq] at hr
    obtain ⟨ha, -⟩ := hr
    subst ha
    refine ⟨by simp, ?_, ?_⟩
    · intro o r ref hin
      simp at hin
      exact hin.2.2
    · intro o r ti hd b bd hin
      simp at hin
  | ok sha =>
    cases hc : h.createRefResult with
    | error e =>
      simp only [hg, hc, Except.ok.injEq, Prod.mk.injEq] at hr
      obtain ⟨ha, -⟩ := hr
      subst ha
      refine ⟨by simp, ?_, ?_⟩
      · intro o r ref hin
        simp at hin
        exact hin.2.2
      · intro o r ti hd b bd hin
        simp at hin
    | ok u1 =>
      cases hf : h.createFileResult with
      | error e =>
        simp only [hg, hc, hf, Except.ok.injEq, Prod.mk.injEq] at hr
        obtain ⟨ha, -⟩ := hr
        subst ha
        refine ⟨by simp, ?_, ?_⟩
        · intro o r ref hin
          simp at hin
          exact hin.2.2
        · intro o r ti hd b bd hin
          simp at hin
      | ok u2 =>
        simp only [hg, hc, hf, Except.ok.injEq, Prod.mk.injEq] at hr
        obtain ⟨ha, -⟩ := hr
        subst ha
        refine ⟨by simp, ?_, ?_⟩
        · intro o r ref hin
          simp at hin
          exact hin.2.2
        · intro o r ti hd b bd hin
          simp at hin
          exact hin.2.2.2.2.1

/-- Witness for C6 (amended): a concrete run whose only ref lookup targets
`refs/heads/main`. -/
theorem publish_base_branch_hardcoded_main_witness :
    HostAction.getRef "o" "t" "refs/heads/main" ∈
      [HostAction.getRef "o" "t" "refs/heads/main"] :=
  (publish_base_branch_hardcoded_main ⟨.error "e", .ok (), .ok (), .ok ()⟩ 0
    "o/t" "f" [] "o" "t" [.getRef "o" "t" "refs/heads/main"] (.error "e")
    rfl rfl).1

/-- Counterexample for C6: the configuration has no base-branch field; with a
pair whose spec-level `baseBranch` is `develop`, the code still resolves
`refs/heads/main` and opens the PR into `main`, not into `develop`. -/
theorem base_branch_not_configured_cex :
    specGetRefTarget ⟨"o/s", "f", "o/t", "develop"⟩ = "refs/heads/develop" ∧
    specPRBase ⟨"o/s", "f", "o/t", "develop"⟩ = "develop" ∧
    createPullRequest ⟨.ok "sha", .ok (), .ok (), .ok ()⟩ 0 "o/t" "f" [] =
      .ok ([.getRef "o" "t" "refs/heads/main",
            .createRef "o" "t" ("refs/heads/" ++ branchNameFor "f" 0) "sha",
            .createFile "o" "t" (slug "f" ++ "-updates.md") (composeBody "f" [])
              ("Notify about changes to " ++ "f") (branchNameFor "f" 0),
            .createPR "o" "t" ("Update: Changes in " ++ "f")
              (branchNameFor "f" 0) "main" (composeBody "f" [])],
           .ok ()) ∧
    ("main" : String) ≠ specPRBase ⟨"o/s", "f", "o/t", "develop"⟩ ∧
    ("refs/heads/main" : String) ≠ specGetRefTarget ⟨"o/s", "f", "o/t", "develop"⟩ :=
  ⟨rfl, rfl, rfl, by decide, by decide⟩

/-- `Format("20060102-150405")` depends only on the wall-clock second. -/
theorem formatCompact_congr (t u : Instant) (h : secondsOf t = secondsOf u) :
    formatCompact t = formatCompact u := by
  unfold formatCompact
  rw [h]

/-- Claim C7, amended: the branch name is deterministically
`<slug(filePath)>-update-<timestamp>` with a second-resolution timestamp;
two publishes for the same file path in the same wall-clock second produce
the *identical* branch name (there is no serialization to a new second
tick), and the resulting branch-create failure is returned as a publish
error, not reported as success. -/
theorem branch_name_deterministic_second_resolution :
    (∀ fp now, branchNameFor fp now = slug fp ++ "-update-" ++ formatCompact now) ∧
    (∀ fp t u, secondsOf t = secondsOf u →
      branchNameFor fp t = branchNameFor fp u) ∧
    (∀ (h : HostOutcomes) now target fp commits owner repo sha e,
      parseRepoName target = .ok (owner, repo) →
      h.getRefResult = .ok sha → h.createRefResult = .error e →
      createPullRequest h now target fp commits =
        .ok ([.getRef owner repo "refs/heads/main",
              .createRef owner repo ("refs/heads/" ++ branchNameFor fp now) sha],
             .error e)) := by
  refine ⟨fun fp now => rfl, ?_, ?_⟩
  · intro fp t u hsec
    unfold branchNameFor
    rw [formatCompact_congr t u hsec]
  · intro h now target fp commits owner repo sha e hp h1 h2
    simp [createPullRequest, hp, h1, h2]

/-- Witness for C7 (amended): two publish instants half a second apart map
to the same branch name. -/
theorem branch_name_deterministic_second_resolution_witness :
    branchNameFor "f" (0 : Instant) = branchNameFor "f" 500000000 :=
  branch_name_deterministic_second_resolution.2.1 "f" 0 500000000 rfl

/-- Counterexample for C7: two distinct publish instants in the same
wall-clock second yield the *same* branch name, and the scheduler can run
two cycles concurrently (nothing serializes the second one to a later
second tick). -/
theorem branch_name_collision_cex :
    (0 : Instant) ≠ 500000000 ∧
    secondsOf 0 = secondsOf 500000000 ∧
    branchNameFor "path/to/file.c" 0 = branchNameFor "path/to/file.c" 500000000 ∧
    SchedReachable ⟨false, 2⟩ :=
  ⟨by decide, rfl, rfl, twoCyclesPath⟩

/-- Claim C4, code bug: from process start the scheduler can reach a state
with two `checkRepos` cycles running concurrently over the shared config
slice — a ticker tick spawns one cycle, then SIGUSR1's
`triggerManualCheck` takes `s.mu`, spawns a second cycle and releases —
and a manual trigger spawns a new cycle no matter how many are already
running: the mutex guards only the spawn, not cycle execution. -/
theorem scheduler_allows_two_concurrent_cycles :
    SchedReachable ⟨false, 2⟩ ∧
    (∀ n : Nat, SchedStep ⟨true, n⟩ ⟨true, n + 1⟩) :=
  ⟨twoCyclesPath, fun n => SchedStep.sigusr1Spawn n⟩

/-- Witness for C4: the manual trigger spawns a second cycle while one is
already running. -/
theorem scheduler_allows_two_concurrent_cycles_witness :
    SchedReachable ⟨false, 2⟩ ∧ SchedStep ⟨true, 1⟩ ⟨true, 2⟩ :=
  ⟨scheduler_allows_two_concurrent_cycles.1,
   scheduler_allows_two_concurrent_cycles.2 1⟩

/-- Claim C1, amended: for a pair processed in a cycle, a scan error or any
failing publish step leaves the watermark unchanged; a successful publish
sets it to the wall-clock time read at success, which is `≥` the author
date of every published commit whose author date does not exceed that time
(author dates are host-supplied data and can lie in the future of the wall
clock, in which case the watermark stays behind them). -/
theorem watermark_after_cycle
    (inp : PairCycleInput) (cfg c : RepoConfig) (lg : List LogEvent)
    (acts : List HostAction)
    (hrun : processPair inp cfg = .ok c lg acts) :
    (LogEvent.createdPR cfg.targetRepoName ∉ lg →
      c.lastChecked = cfg.lastChecked) ∧
    (LogEvent.createdPR cfg.targetRepoName ∈ lg →
      c.lastChecked = inp.successNow ∧
      ∀ hostList, inp.listCommitsResult = .ok hostList →
        ∀ cm ∈ hostList.filter
          (fun x => appTimeAfter x.authorDate cfg.lastChecked),
          cm.authorDate ≤ inp.successNow → cm.authorDate ≤ c.lastChecked) := by
  simp only [processPair] at hrun
  split at hrun
  · simp at hrun
  · simp only [PairResult.ok.injEq] at hrun
    obtain ⟨h1, h2, -⟩ := hrun
    subst h1; subst h2
    constructor
    · intro _; rfl
    · intro hmem; exact absurd hmem (by simp)
  · split at hrun
    · split at hrun
      · simp at hrun
      · simp only [PairResult.ok.injEq] at hrun
        obtain ⟨h1, h2, -⟩ := hrun
        subst h1; subst h2
        constructor
        · intro _; rfl
        · intro hmem; exact absurd hmem (by simp)
      · simp only [PairResult.ok.injEq] at hrun
        obtain ⟨h1, h2, -⟩ := hrun
        subst h1; subst h2
        constructor
        · intro hnot; exact absurd (by simp) hnot
        · intro _
          refine ⟨rfl, ?_⟩
          intro hostList _ cm _ hle
          exact hle
    · simp only [PairResult.ok.injEq] at hrun
      obtain ⟨h1, h2, -⟩ := hrun
      subst h1; subst h2
      constructor
      · intro _; rfl
      · intro hmem; exact absurd hmem (by simp)

/-- Witness for C1 (amended): watermark 0, one commit dated 10, success at
wall-clock 20: the watermark becomes 20 and the published commit's author
date 10 is below it. -/
theorem watermark_after_cycle_witness :
    ({ sourceRepoName := "o/s", filePath := "f", targetRepoName := "o/t",
       since := "2024-01-01", lastChecked := (20 : Instant) } :
      RepoConfig).lastChecked = (20 : Instant) ∧
    ({ message := "m", htmlURL := "u", authorDate := (10 : Instant) } :
      RepositoryCommit).authorDate ≤ (20 : Instant) := by
  have h := watermark_after_cycle
    ⟨.ok [⟨"m", "u", 10⟩], ⟨.ok "sha", .ok (), .ok (), .ok ()⟩, 3, 20⟩
    ⟨"o/s", "f", "o/t", "2024-01-01", 0⟩
    ⟨"o/s", "f", "o/t", "2024-01-01", 20⟩
    [.checkingRepo "o/s" "f", .foundCommits 1 "f", .createdPR "o/t"]
    [.getRef "o" "t" "refs/heads/main",
     .createRef "o" "t" ("refs/heads/" ++ branchNameFor "f" 3) "sha",
     .createFile "o" "t" (slug "f" ++ "-updates.md")
       (composeBody "f" [⟨"m", "u", 10⟩]) ("Notify about changes to " ++ "f")
       (branchNameFor "f" 3),
     .createPR "o" "t" ("Update: Changes in " ++ "f") (branchNameFor "f" 3)
       "main" (composeBody "f" [⟨"m", "u", 10⟩])]
    rfl
  have h2 := h.2 (by simp)
  exact ⟨h2.1, h2.2 [⟨"m", "u", 10⟩] rfl ⟨"m", "u", 10⟩ (by decide) (by decide)⟩

/-- Counterexample for C1: a successful publish of a commit whose author
date (10) exceeds the wall clock at success time (5) leaves the watermark
at 5, strictly below the latest published commit's author date. -/
theorem watermark_below_author_date_cex :
    (processPair
        ⟨.ok [⟨"m", "u", 10⟩], ⟨.ok "sha", .ok (), .ok (), .ok ()⟩, 3, 5⟩
        ⟨"o/s", "f", "o/t", "2024-01-01", 0⟩).cfgOf =
      some ⟨"o/s", "f", "o/t", "2024-01-01", 5⟩ ∧
    LogEvent.createdPR "o/t" ∈
      (processPair
        ⟨.ok [⟨"m", "u", 10⟩], ⟨.ok "sha", .ok (), .ok (), .ok ()⟩, 3, 5⟩
        ⟨"o/s", "f", "o/t", "2024-01-01", 0⟩).logLines ∧
    ¬ ((10 : Instant) ≤ 5) :=
  ⟨rfl, by decide, by decide⟩

/-- Claim C10: a repository name that does not split into exactly two parts on
`/` makes `parseRepoName` terminate the whole process (`log.Fatalf`,
modelled as the `Fatalf` outcome) instead of returning an error; inside a
cycle this aborts processing at that pair, leaving every remaining pair
unprocessed and untouched. -/
theorem malformed_repo_name_fatal :
    (∀ s, (goSplit s '/').length ≠ 2 →
      parseRepoName s = .error (.invalidRepoName s)) ∧
    (∀ inp cfg, (goSplit cfg.sourceRepoName '/').length ≠ 2 →
      processPair inp cfg = .fatal (.invalidRepoName cfg.sourceRepoName)
        [.checkingRepo cfg.sourceRepoName cfg.filePath] []) ∧
    (∀ (inputs : Nat → PairCycleInput) i f lg acts cfg rest,
      processPair (inputs i) cfg = .fatal f lg acts →
      checkReposFrom inputs i (cfg :: rest) = .fatal f (cfg :: rest) lg acts) := by
  have hp : ∀ s, (goSplit s '/').length ≠ 2 →
      parseRepoName s = .error (.invalidRepoName s) := by
    intro s hs
    unfold parseRepoName
    cases hg : goSplit s '/' with
    | nil => rfl
    | cons a l =>
      cases l with
      | nil => rfl
      | cons b l2 =>
        cases l2 with
        | nil => exact absurd (by simp [hg]) hs
        | cons x l3 => rfl
  refine ⟨hp, ?_, ?_⟩
  · intro inp cfg hcs
    unfold processPair checkRepo
    rw [hp _ hcs]
  · intro inputs i f lg acts cfg rest hfatal
    unfold checkReposFrom
    rw [hfatal]

/-- Witness for C10: the malformed name `badname` kills the process during
the first pair; the second configured pair is never processed. -/
theorem malformed_repo_name_fatal_witness :
    parseRepoName "badname" = .error (.invalidRepoName "badname") ∧
    checkReposFrom
      (fun _ => ⟨.error "e", ⟨.error "e", .error "e", .error "e", .error "e"⟩, 0, 0⟩)
      0 [⟨"badname", "f", "o/t", "2024-01-01", 0⟩,
         ⟨"o/s2", "f2", "o/t2", "2024-01-01", 0⟩] =
      .fatal (.invalidRepoName "badname")
        [⟨"badname", "f", "o/t", "2024-01-01", 0⟩,
         ⟨"o/s2", "f2", "o/t2", "2024-01-01", 0⟩]
        [.checkingRepo "badname" "f"] [] := by
  have h := malformed_repo_name_fatal
  exact ⟨h.1 "badname" (by decide),
    h.2.2 _ 0 _ _ _ _ _
      (h.2.1 _ ⟨"badname", "f", "o/t", "2024-01-01", 0⟩ (by decide))⟩

/-- A well-formed `owner/repo` name parses without killing the process. -/
theorem parseRepoName_ok_of_valid (s : String) (h : validRepoName s) :
    ∃ a b, parseRepoName s = .ok (a, b) := by
  unfold validRepoName at h
  unfold parseRepoName
  cases hg : goSplit s '/' with
  | nil => rw [hg] at h; simp at h
  | cons a l =>
    cases l with
    | nil => rw [hg] at h; simp at h
    | cons b l2 =>
      cases l2 with
      | nil => exact ⟨a, b, rfl⟩
      | cons x l3 => rw [hg] at h; simp [List.length] at h

/-- With a well-formed target name the publish workflow never kills the
process: it returns some (trace, result). -/
theorem createPullRequest_ok_of_valid (h : HostOutcomes) (now : Instant)
    (target fp : String) (commits : List RepositoryCommit)
    (ht : validRepoName target) :
    ∃ p, createPullRequest h now target fp commits = .ok p := by
  obtain ⟨a, b, hp⟩ := parseRepoName_ok_of_valid target ht
  unfold createPullRequest
  rw [hp]
  cases h.getRefResult with
  | error e => exact ⟨_, rfl⟩
  | ok sha =>
    cases h.createRefResult with
    | error e => exact ⟨_, rfl⟩
    | ok u =>
      cases h.createFileResult with
      | error e => exact ⟨_, rfl⟩
      | ok u2 => exact ⟨_, rfl⟩

/-- With well-formed names one pair's processing always survives, whatever
the host answers, and its log opens with that pair's checking line. -/
theorem processPair_ok_of_valid (inp : PairCycleInput) (cfg : RepoConfig)
    (hs : validRepoName cfg.sourceRepoName)
    (ht : validRepoName cfg.targetRepoName) :
    ∃ c lg acts, processPair inp cfg = .ok c lg acts ∧
      LogEvent.checkingRepo cfg.sourceRepoName cfg.filePath ∈ lg := by
  obtain ⟨a, b, hpa⟩ := parseRepoName_ok_of_valid _ hs
  cases hlc : inp.listCommitsResult with
  | error e =>
    refine ⟨cfg, [.checkingRepo cfg.sourceRepoName cfg.filePath,
      .errorChecking cfg.sourceRepoName e], [], ?_, by simp⟩
    simp [processPair, checkRepo, hpa, hlc]
  | ok commits =>
    obtain ⟨⟨acts, res⟩, hcp⟩ := createPullRequest_ok_of_valid inp.hostOutcomes
      inp.publishNow cfg.targetRepoName cfg.filePath
      (commits.filter fun c => appTimeAfter c.authorDate cfg.lastChecked) ht
    by_cases hn : (commits.filter fun c =>
        appTimeAfter c.authorDate cfg.lastChecked).length > 0
    · cases res with
      | error e =>
        refine ⟨cfg, [.checkingRepo cfg.sourceRepoName cfg.filePath,
          .foundCommits (commits.filter fun c =>
            appTimeAfter c.authorDate cfg.lastChecked).length cfg.filePath,
          .errorCreatingPR cfg.targetRepoName e], acts, ?_, by simp⟩
        simp [processPair, checkRepo, hpa, hlc, hn, hcp]
      | ok u =>
        refine ⟨{ cfg with lastChecked := inp.successNow },
          [.checkingRepo cfg.sourceRepoName cfg.filePath,
          .foundCommits (commits.filter fun c =>
            appTimeAfter c.authorDate cfg.lastChecked).length cfg.filePath,
          .createdPR cfg.targetRepoName], acts, ?_, by simp⟩
        simp [processPair, checkRepo, hpa, hlc, hn, hcp]
    · refine ⟨cfg, [.checkingRepo cfg.sourceRepoName cfg.filePath,
        .noNewCommits cfg.filePath cfg.sourceRepoName], [], ?_, by simp⟩
      simp [processPair, checkRepo, hpa, hlc, hn]

/-- With well-formed names the cycle loop completes, processes every pair,
and its log is exactly each pair's own log lines concatenated in pair order
(so whatever a pair logged — its checking line included — appears in the
cycle log), whatever errors the host returned. -/
theorem checkReposFrom_completes (inputs : Nat → PairCycleInput)
    (configs : List RepoConfig) :
    ∀ i : Nat,
      (∀ cfg ∈ configs, validRepoName cfg.sourceRepoName ∧
        validRepoName cfg.targetRepoName) →
      ∃ cfgs lg acts,
        checkReposFrom inputs i configs = .completed cfgs lg acts ∧
        cfgs.length = configs.length ∧
        lg = ((configs.enumFrom i).map
          (fun p => (processPair (inputs p.1) p.2).logLines)).flatten ∧
        ∀ cfg ∈ configs,
          LogEvent.checkingRepo cfg.sourceRepoName cfg.filePath ∈ lg := by
  induction configs with
  | nil => intro i h; exact ⟨[], [], [], rfl, rfl, rfl, by simp⟩
  | cons cfg rest ih =>
    intro i h
    obtain ⟨c, lg, acts, hpp, hmem⟩ := processPair_ok_of_valid (inputs i) cfg
      (h cfg (by simp)).1 (h cfg (by simp)).2
    obtain ⟨cfgs, lg2, acts2, hrec, hlen, hlg2, hmems⟩ := ih (i + 1)
      (fun x hx => h x (by simp [hx]))
    refine ⟨c :: cfgs, lg ++ lg2, acts ++ acts2, ?_, ?_, ?_, ?_⟩
    · simp only [checkReposFrom, hpp, hrec]
    · simp [hlen]
    · simp [List.enumFrom, List.flatten, hpp, PairResult.logLines, hlg2]
    · intro x hx
      rcases List.mem_cons.mp hx with h1 | h2
      · subst h1; exact List.mem_append_left _ hmem
      · exact List.mem_append_right _ (hmems x h2)

/-- Claim C8: per-pair errors are caught *and logged* at the pair boundary
and never halt the cycle: a scan error leaves the pair's config untouched
and logs the `Error checking repo` line; a failing publish step leaves the
config untouched and logs the `Error creating pull request` line; with
well-formed repository names a cycle always completes, processing every
pair, and its log is exactly the concatenation of the pairs' own logs (so
those error lines appear in it); the only process-terminating condition
inside a cycle is the configuration-level `Fatalf` for a malformed
repository name. -/
theorem per_pair_errors_never_halt_cycle :
    (∀ (inp : PairCycleInput) (cfg : RepoConfig) e,
      validRepoName cfg.sourceRepoName →
      inp.listCommitsResult = .error e →
      processPair inp cfg = .ok cfg
        [.checkingRepo cfg.sourceRepoName cfg.filePath,
         .errorChecking cfg.sourceRepoName e] []) ∧
    (∀ (inp : PairCycleInput) (cfg : RepoConfig) hostList acts e,
      validRepoName cfg.sourceRepoName →
      inp.listCommitsResult = .ok hostList →
      (hostList.filter fun c =>
        appTimeAfter c.authorDate cfg.lastChecked).length > 0 →
      createPullRequest inp.hostOutcomes inp.publishNow cfg.targetRepoName
        cfg.filePath
        (hostList.filter fun c => appTimeAfter c.authorDate cfg.lastChecked) =
        .ok (acts, .error e) →
      processPair inp cfg = .ok cfg
        [.checkingRepo cfg.sourceRepoName cfg.filePath,
         .foundCommits (hostList.filter fun c =>
           appTimeAfter c.authorDate cfg.lastChecked).length cfg.filePath,
         .errorCreatingPR cfg.targetRepoName e] acts) ∧
    (∀ (inputs : Nat → PairCycleInput) (configs : List RepoConfig),
      (∀ cfg ∈ configs, validRepoName cfg.sourceRepoName ∧
        validRepoName cfg.targetRepoName) →
      ∃ cfgs lg acts, checkRepos inputs configs = .completed cfgs lg acts ∧
        cfgs.length = configs.length ∧
        lg = ((configs.enumFrom 0).map
          (fun p => (processPair (inputs p.1) p.2).logLines)).flatten ∧
        ∀ cfg ∈ configs,
          LogEvent.checkingRepo cfg.sourceRepoName cfg.filePath ∈ lg) ∧
    (∀ (inputs : Nat → PairCycleInput) (configs : List RepoConfig) f cfgs lg
        acts, checkRepos inputs configs = .fatal f cfgs lg acts →
      ∃ name, f = .invalidRepoName name) := by
  refine ⟨?_, ?_, ?_, ?_⟩
  · intro inp cfg e hs hlc
    obtain ⟨a, b, hpa⟩ := parseRepoName_ok_of_valid _ hs
    simp [processPair, checkRepo, hpa, hlc]
  · intro inp cfg hostList acts e hs hlc hn hcp
    obtain ⟨a, b, hpa⟩ := parseRepoName_ok_of_valid _ hs
    simp [processPair, checkRepo, hpa, hlc, hn, hcp]
  · intro inputs configs h
    exact checkReposFrom_completes inputs configs 0 h
  · intro inputs configs f cfgs lg acts hf
    cases f with
    | invalidRepoName n => exact ⟨n, rfl⟩

/-- Witness for C8: a concrete scan error and a concrete failing publish
step each get their error line logged while the pair's config stays
untouched, and a cycle over two pairs whose host calls all fail still
completes, its log the concatenation of the pairs' logs. -/
theorem per_pair_errors_never_halt_cycle_witness :
    processPair
      ⟨.error "network down",
        ⟨.error "x", .error "x", .error "x", .error "x"⟩, 0, 0⟩
      ⟨"o/s", "f", "o/t", "2024-01-01", 0⟩ =
      .ok ⟨"o/s", "f", "o/t", "2024-01-01", 0⟩
        [.checkingRepo "o/s" "f", .errorChecking "o/s" "network down"] [] ∧
    processPair
      ⟨.ok [⟨"m", "u", 10⟩], ⟨.error "boom", .ok (), .ok (), .ok ()⟩, 0, 0⟩
      ⟨"o/s", "f", "o/t", "2024-01-01", 0⟩ =
      .ok ⟨"o/s", "f", "o/t", "2024-01-01", 0⟩
        [.checkingRepo "o/s" "f", .foundCommits 1 "f",
         .errorCreatingPR "o/t" "boom"]
        [.getRef "o" "t" "refs/heads/main"] ∧
    ∃ cfgs lg acts,
      checkRepos
        (fun _ => ⟨.error "network down",
          ⟨.error "x", .error "x", .error "x", .error "x"⟩, 0, 0⟩)
        [⟨"o/s", "f", "o/t", "2024-01-01", 0⟩,
         ⟨"o/s2", "f2", "o/t2", "2024-01-01", 0⟩] = .completed cfgs lg acts ∧
      cfgs.length =
        ([⟨"o/s", "f", "o/t", "2024-01-01", 0⟩,
          ⟨"o/s2", "f2", "o/t2", "2024-01-01", 0⟩] :
            List RepoConfig).length ∧
      lg = ((([⟨"o/s", "f", "o/t", "2024-01-01", 0⟩,
          ⟨"o/s2", "f2", "o/t2", "2024-01-01", 0⟩] :
            List RepoConfig).enumFrom 0).map
        (fun p => (processPair
          ((fun _ => ⟨.error "network down",
            ⟨.error "x", .error "x", .error "x", .error "x"⟩, 0, 0⟩ :
              Nat → PairCycleInput) p.1) p.2).logLines)).flatten ∧
      ∀ cfg ∈ ([⟨"o/s", "f", "o/t", "2024-01-01", 0⟩,
          ⟨"o/s2", "f2", "o/t2", "2024-01-01", 0⟩] : List RepoConfig),
        LogEvent.checkingRepo cfg.sourceRepoName cfg.filePath ∈ lg :=
  ⟨per_pair_errors_never_halt_cycle.1
      ⟨.error "network down",
        ⟨.error "x", .error "x", .error "x", .error "x"⟩, 0, 0⟩
      ⟨"o/s", "f", "o/t", "2024-01-01", 0⟩ "network down" (by decide) rfl,
   per_pair_errors_never_halt_cycle.2.1
      ⟨.ok [⟨"m", "u", 10⟩], ⟨.error "boom", .ok (), .ok (), .ok ()⟩, 0, 0⟩
      ⟨"o/s", "f", "o/t", "2024-01-01", 0⟩ [⟨"m", "u", 10⟩]
      [.getRef "o" "t" "refs/heads/main"] "boom" (by decide) rfl (by decide)
      rfl,
   per_pair_errors_never_halt_cycle.2.2.1 _ _ (by decide)⟩

/-- Claim C5, code bug: the watermark does not survive restarts.  A cycle
whose publish succeeds updates only the in-memory `LastChecked` field — the
persisted `since` string is never rewritten, as the program has no code
writing `config.toml` (the README says the field is updated) — so reloading
after a restart re-derives the old midnight-of-`since` watermark; the
advanced instant is lost, and the date-only `2006-01-02` layout could not
even represent it. -/
theorem watermark_not_persisted :
    (checkRepos
      (fun _ => ⟨.ok [⟨"fix bug", "https://host/c/abc", 1704153600000000000⟩],
        ⟨.ok "sha", .ok (), .ok (), .ok ()⟩,
        1704153600000000000, 1704189600000000000⟩)
      [⟨"o/s", "f", "o/t", "2024-01-01", 1704067200000000000⟩]).configsOf =
      [⟨"o/s", "f", "o/t", "2024-01-01", 1704189600000000000⟩] ∧
    LogEvent.createdPR "o/t" ∈
      (checkRepos
        (fun _ => ⟨.ok [⟨"fix bug", "https://host/c/abc", 1704153600000000000⟩],
          ⟨.ok "sha", .ok (), .ok (), .ok ()⟩,
          1704153600000000000, 1704189600000000000⟩)
        [⟨"o/s", "f", "o/t", "2024-01-01", 1704067200000000000⟩]).logOf ∧
    reloadPair ⟨"o/s", "f", "o/t", "2024-01-01", 1704189600000000000⟩ =
      some ⟨"o/s", "f", "o/t", "2024-01-01", 1704067200000000000⟩ ∧
    (1704067200000000000 : Instant) ≠ 1704189600000000000 :=
  ⟨rfl, by decide, rfl, by decide⟩

end Vigilant
